import Mathlib

/-!
Verification of the moderation core of the atproto repository against its
natural-language specification.  The pure documentation generator
(packages/api/scripts/docs/profile-moderation-behaviors.mjs), the
ServerConfig constructor and the seed-client moderation wrappers
(packages/bsky/tests/seeds/client.ts) are embedded directly from the
source.  The moderation service itself (action/report ledger, directive
merge) is not part of the sampled source files — only its endpoint
handler and test callers are — so those parts are modelled from the
specification, as marked on each definition.
-/

/-- JavaScript truthiness of an optional boolean field: undefined and
false are falsy, true is truthy.  Models expressions such as
scenario.behaviors.account?.filter used in boolean position. -/
def jsTruthy : Option Bool → Bool
  | none => false
  | some b => b

namespace ModDocs

/-- Behavior record of one entity in a scenario of
profile-moderation-behaviors.json: optional booleans filter, blur,
noOverride, alert (absent fields behave as undefined). -/
structure EntityBehavior where
  filter : Option Bool
  blur : Option Bool
  noOverride : Option Bool
  alert : Option Bool
deriving DecidableEq

/-- The behaviors object of one scenario: optional account, profile and
avatar entity records. -/
structure Behaviors where
  account : Option EntityBehavior
  profile : Option EntityBehavior
  avatar : Option EntityBehavior
deriving DecidableEq

/-- The three entity kinds a scenario row renders. -/
inductive EntityKind
  | account
  | profile
  | avatar
deriving DecidableEq

/-- Selects the entity record of the given kind, as in
scenario.behaviors.account / .profile / .avatar. -/
def Behaviors.entity (b : Behaviors) : EntityKind → Option EntityBehavior
  | EntityKind.account => b.account
  | EntityKind.profile => b.profile
  | EntityKind.avatar => b.avatar

/-- Optional chaining scenario.behaviors.(entity)?.(field): none when the
entity record is absent, otherwise the field of the record. -/
def fieldOf (b : Behaviors) (k : EntityKind) (f : EntityBehavior → Option Bool) : Option Bool :=
  (b.entity k).bind f

/-- Embeds function filter of profile-moderation-behaviors.mjs:
val ? (cross mark) : (empty). -/
def filter (val : Option Bool) : String :=
  if jsTruthy val then "❌" else ""

/-- Embeds function blur of profile-moderation-behaviors.mjs:
if (val) return noOverride ? (no-entry) : (hand); return (empty). -/
def blur (val noOverride : Option Bool) : String :=
  if jsTruthy val then (if jsTruthy noOverride then "🚫" else "✋") else ""

/-- Embeds function alert of profile-moderation-behaviors.mjs:
val ? (placard) : (empty). -/
def alert (val : Option Bool) : String :=
  if jsTruthy val then "🪧" else ""

/-- Content of the Filter column cell of a scenario row:
filter(scenario.behaviors.account?.filter). -/
def filterMark (b : Behaviors) : String :=
  filter (fieldOf b EntityKind.account EntityBehavior.filter)

/-- Blur marker of the cell of the given entity:
blur(scenario.behaviors.(entity)?.blur, scenario.behaviors.(entity)?.noOverride). -/
def blurMark (b : Behaviors) (k : EntityKind) : String :=
  blur (fieldOf b k EntityBehavior.blur) (fieldOf b k EntityBehavior.noOverride)

/-- Alert marker of the cell of the given entity:
alert(scenario.behaviors.(entity)?.alert). -/
def alertMark (b : Behaviors) (k : EntityKind) : String :=
  alert (fieldOf b k EntityBehavior.alert)

/-- Embeds scenarioSection of profile-moderation-behaviors.mjs: the table
row for one scenario (whitespace of the template literal normalised). -/
def scenarioSection (title : String) (b : Behaviors) : String :=
  "<tr>\n<td><strong>" ++ title ++ "</strong></td>\n<td>\n"
    ++ filter (fieldOf b EntityKind.account EntityBehavior.filter)
    ++ "\n</td>\n<td>\n"
    ++ blur (fieldOf b EntityKind.account EntityBehavior.blur)
        (fieldOf b EntityKind.account EntityBehavior.noOverride)
    ++ "\n" ++ alert (fieldOf b EntityKind.account EntityBehavior.alert)
    ++ "\n</td>\n<td>\n"
    ++ blur (fieldOf b EntityKind.profile EntityBehavior.blur)
        (fieldOf b EntityKind.profile EntityBehavior.noOverride)
    ++ "\n" ++ alert (fieldOf b EntityKind.profile EntityBehavior.alert)
    ++ "\n</td>\n<td>\n"
    ++ blur (fieldOf b EntityKind.avatar EntityBehavior.blur)
        (fieldOf b EntityKind.avatar EntityBehavior.noOverride)
    ++ "\n" ++ alert (fieldOf b EntityKind.avatar EntityBehavior.alert)
    ++ "\n</td>\n</tr>"

theorem filter_mark_spec (o : Option Bool) :
    (filter o = "❌" ↔ o = some true) ∧ (filter o = "" ↔ o ≠ some true) := by
  cases o with
  | none => decide
  | some b => cases b <;> decide

theorem blur_mark_spec (v n : Option Bool) :
    (blur v n = "🚫" ↔ v = some true ∧ n = some true) ∧
    (blur v n = "✋" ↔ v = some true ∧ n ≠ some true) ∧
    (blur v n = "" ↔ v ≠ some true) := by
  cases v with
  | none =>
    cases n with
    | none => decide
    | some nb => cases nb <;> decide
  | some vb =>
    cases vb <;> cases n with
    | none => decide
    | some nb => cases nb <;> decide

theorem alert_mark_spec (o : Option Bool) :
    alert o = "🪧" ↔ o = some true := by
  cases o with
  | none => decide
  | some b => cases b <;> decide

end ModDocs

open ModDocs in
/-- Claim C2: in a rendered scenario row, the Filter column holds the
cross mark iff behaviors.account.filter is true and is empty otherwise;
an entity blur cell holds the no-entry mark iff both blur and noOverride
of that entity are true, the hand mark iff blur is true and noOverride is
not, and is empty iff blur is falsy; the alert marker of an entity is the
placard iff that entity alert field is true. -/
theorem c2_scenario_row_markers (b : Behaviors) (k : EntityKind) :
    (filterMark b = "❌" ↔ fieldOf b EntityKind.account EntityBehavior.filter = some true) ∧
    (filterMark b = "" ↔ fieldOf b EntityKind.account EntityBehavior.filter ≠ some true) ∧
    (blurMark b k = "🚫" ↔
      fieldOf b k EntityBehavior.blur = some true ∧
      fieldOf b k EntityBehavior.noOverride = some true) ∧
    (blurMark b k = "✋" ↔
      fieldOf b k EntityBehavior.blur = some true ∧
      fieldOf b k EntityBehavior.noOverride ≠ some true) ∧
    (blurMark b k = "" ↔ fieldOf b k EntityBehavior.blur ≠ some true) ∧
    (alertMark b k = "🪧" ↔ fieldOf b k EntityBehavior.alert = some true) := by
  refine ⟨(filter_mark_spec _).1, (filter_mark_spec _).2, ?_, ?_, ?_, alert_mark_spec _⟩
  · exact (blur_mark_spec _ _).1
  · exact (blur_mark_spec _ _).2.1
  · exact (blur_mark_spec _ _).2.2

/-- Concrete instantiation of claim C2 on a scenario whose account is
filtered and whose avatar is blurred without override. -/
theorem c2_scenario_row_markers_witness :
    ModDocs.filterMark
        ⟨some ⟨some true, none, none, none⟩, none, some ⟨none, some true, some false, some true⟩⟩
      = "❌" ∧
    ModDocs.blurMark
        ⟨some ⟨some true, none, none, none⟩, none, some ⟨none, some true, some false, some true⟩⟩
        ModDocs.EntityKind.avatar
      = "✋" := by
  have h := c2_scenario_row_markers
    ⟨some ⟨some true, none, none, none⟩, none, some ⟨none, some true, some false, some true⟩⟩
    ModDocs.EntityKind.avatar
  exact ⟨h.1.mpr rfl, (h.2.2.2.1).mpr ⟨rfl, by decide⟩⟩

open ModDocs in
/-- Claim C3: noOverride only matters when blur is truthy — whenever the
blur value is falsy the blur rendering is empty, and two runs differing
only in noOverride render identically. -/
theorem c3_noOverride_gated_by_blur (v n₁ n₂ : Option Bool) (h : jsTruthy v = false) :
    blur v n₁ = blur v n₂ ∧ blur v n₁ = "" := by
  unfold blur
  rw [h]
  exact ⟨rfl, rfl⟩

/-- Concrete instantiation of claim C3: blur false with noOverride true
versus noOverride absent renders the same empty marker. -/
theorem c3_noOverride_gated_by_blur_witness :
    ModDocs.blur (some false) (some true) = ModDocs.blur (some false) none ∧
    ModDocs.blur (some false) (some true) = "" :=
  c3_noOverride_gated_by_blur (some false) (some true) none rfl

open ModDocs in
/-- Claim C4: two independence statements, each under its own agreement
alone — behaviors agreeing on behaviors.account.filter render the same
Filter cell however blur, noOverride and alert differ, and behaviors
agreeing on an entity alert field render the same alert marker however
that entity filter, blur and noOverride differ. -/
theorem c4_filter_alert_independent (b₁ b₂ : Behaviors) (k : EntityKind) :
    (fieldOf b₁ EntityKind.account EntityBehavior.filter
        = fieldOf b₂ EntityKind.account EntityBehavior.filter →
      filterMark b₁ = filterMark b₂) ∧
    (fieldOf b₁ k EntityBehavior.alert = fieldOf b₂ k EntityBehavior.alert →
      alertMark b₁ k = alertMark b₂ k) := by
  constructor
  · intro hf
    unfold filterMark
    rw [hf]
  · intro ha
    unfold alertMark
    rw [ha]

/-- Concrete instantiation of claim C4: one pair agrees only on
account.filter while differing in every alert, blur and noOverride field
yet renders the same Filter cell; the other pair agrees only on the
account alert field while differing in account.filter, blur and
noOverride yet renders the same alert marker. -/
theorem c4_filter_alert_independent_witness :
    ModDocs.filterMark ⟨some ⟨some true, some true, some true, some true⟩, none, none⟩
      = ModDocs.filterMark ⟨some ⟨some true, some false, none, some false⟩, some ⟨none, some true, some true, some true⟩, none⟩ ∧
    ModDocs.alertMark ⟨some ⟨some true, some true, some true, some true⟩, none, none⟩
        ModDocs.EntityKind.account
      = ModDocs.alertMark ⟨some ⟨some false, none, none, some true⟩, none, none⟩
        ModDocs.EntityKind.account := by
  constructor
  · exact (c4_filter_alert_independent
      ⟨some ⟨some true, some true, some true, some true⟩, none, none⟩
      ⟨some ⟨some true, some false, none, some false⟩, some ⟨none, some true, some true, some true⟩, none⟩
      ModDocs.EntityKind.account).1 (by decide)
  · exact (c4_filter_alert_independent
      ⟨some ⟨some true, some true, some true, some true⟩, none, none⟩
      ⟨some ⟨some false, none, none, some true⟩, none, none⟩
      ModDocs.EntityKind.account).2 (by decide)

/-- JavaScript truthiness of an optional string: undefined and the empty
string are falsy, any other string is truthy. -/
def jsTruthyStr : Option String → Bool
  | none => false
  | some s => !s.isEmpty

namespace ServerConfig

/-- Embeds the ServerConfig constructor: find the first domain with
length below one or without a leading dot, and throw when that found
value is truthy. -/
def construct (availableUserDomains : List String) : Except String Unit :=
  let invalidDomain := availableUserDomains.find? (fun domain =>
    decide (domain.length < 1) || !(domain.startsWith "."))
  if jsTruthyStr invalidDomain then
    Except.error ("Invalid domain: " ++ invalidDomain.getD "")
  else
    Except.ok ()

end ServerConfig

/-- Claim C8 evaluated at the failing input: the list holding only the
empty string has an entry that is empty (and lacks the leading dot), yet
construction succeeds, because the constructor tests truthiness of the
found domain and the empty string is falsy. -/
theorem c8_empty_domain_not_rejected :
    ServerConfig.construct [""] = Except.ok () ∧
    (decide (("" : String).length < 1) || !(("" : String).startsWith ".")) = true := by
  constructor
  · rfl
  · decide

namespace Seed

/-- Message thrown by every seed-client moderation wrapper when
adminAuth is falsy, before any request is built. -/
def noAdminAuthMsg : String := "No admin auth provided to seed client"

/-- Options of SeedClient.takeModerationAction; reason and createdBy may
be omitted. -/
structure TakeActionOpts where
  action : String
  subject : String
  reason : Option String
  createdBy : Option String
deriving DecidableEq

/-- Options of SeedClient.reverseModerationAction. -/
structure ReverseActionOpts where
  id : Nat
  reason : Option String
  createdBy : Option String
deriving DecidableEq

/-- Options of SeedClient.resolveReports. -/
structure ResolveReportsOpts where
  actionId : Nat
  reportIds : List Nat
  createdBy : Option String
deriving DecidableEq

/-- The takeModerationAction request the wrapper issues: body fields plus
the authorization header. -/
structure TakeActionRequest where
  action : String
  subject : String
  createdBy : String
  reason : String
  authorization : String
deriving DecidableEq

/-- The reverseModerationAction request the wrapper issues. -/
structure ReverseActionRequest where
  id : Nat
  reason : String
  createdBy : String
  authorization : String
deriving DecidableEq

/-- The resolveModerationReports request the wrapper issues; its body has
no reason field. -/
structure ResolveReportsRequest where
  actionId : Nat
  createdBy : String
  reportIds : List Nat
  authorization : String
deriving DecidableEq

/-- Embeds SeedClient.takeModerationAction: throw on falsy adminAuth,
otherwise send the request with defaults reason X and
did:example:admin for createdBy. -/
def takeModerationAction (adminAuth : Option String) (opts : TakeActionOpts) :
    Except String TakeActionRequest :=
  match adminAuth with
  | none => Except.error noAdminAuthMsg
  | some auth =>
    if auth.isEmpty then Except.error noAdminAuthMsg
    else Except.ok ⟨opts.action, opts.subject, opts.createdBy.getD "did:example:admin",
      opts.reason.getD "X", auth⟩

/-- Embeds SeedClient.reverseModerationAction: throw on falsy adminAuth,
otherwise send the request with the same defaults. -/
def reverseModerationAction (adminAuth : Option String) (opts : ReverseActionOpts) :
    Except String ReverseActionRequest :=
  match adminAuth with
  | none => Except.error noAdminAuthMsg
  | some auth =>
    if auth.isEmpty then Except.error noAdminAuthMsg
    else Except.ok ⟨opts.id, opts.reason.getD "X", opts.createdBy.getD "did:example:admin", auth⟩

/-- Embeds SeedClient.resolveReports: throw on falsy adminAuth, otherwise
send the request; its body carries no reason, and createdBy defaults to
did:example:admin. -/
def resolveReports (adminAuth : Option String) (opts : ResolveReportsOpts) :
    Except String ResolveReportsRequest :=
  match adminAuth with
  | none => Except.error noAdminAuthMsg
  | some auth =>
    if auth.isEmpty then Except.error noAdminAuthMsg
    else Except.ok ⟨opts.actionId, opts.createdBy.getD "did:example:admin", opts.reportIds, auth⟩

end Seed

/-- Claim C9 as stated is false: adminAuth set to the empty string is a
set value, yet the wrapper throws instead of sending a request with that
authorization header, because the source tests truthiness of adminAuth. -/
theorem c9_falsy_admin_auth_counterexample :
    Seed.takeModerationAction (some "")
        ⟨"com.atproto.admin.defs#takedown", "did:example:carol", none, none⟩
      = Except.error Seed.noAdminAuthMsg := rfl

open Seed in
/-- Claim C9 amended: every moderation wrapper throws the no-admin-auth
error when adminAuth is unset or empty, issuing no request; when
adminAuth is a non-empty string the request is sent with it as the
authorization header, createdBy defaulting to did:example:admin, and
reason defaulting to X in the two wrappers whose body carries a reason. -/
theorem c9_admin_wrappers (adminAuth : Option String)
    (t : TakeActionOpts) (r : ReverseActionOpts) (q : ResolveReportsOpts) :
    (jsTruthyStr adminAuth = false →
      takeModerationAction adminAuth t = Except.error noAdminAuthMsg ∧
      reverseModerationAction adminAuth r = Except.error noAdminAuthMsg ∧
      resolveReports adminAuth q = Except.error noAdminAuthMsg) ∧
    (∀ auth : String, adminAuth = some auth → auth.isEmpty = false →
      takeModerationAction adminAuth t
        = Except.ok ⟨t.action, t.subject, t.createdBy.getD "did:example:admin",
            t.reason.getD "X", auth⟩ ∧
      reverseModerationAction adminAuth r
        = Except.ok ⟨r.id, r.reason.getD "X", r.createdBy.getD "did:example:admin", auth⟩ ∧
      resolveReports adminAuth q
        = Except.ok ⟨q.actionId, q.createdBy.getD "did:example:admin", q.reportIds, auth⟩) := by
  constructor
  · intro h
    cases adminAuth with
    | none => exact ⟨rfl, rfl, rfl⟩
    | some auth =>
      simp only [jsTruthyStr, Bool.not_eq_false'] at h
      simp [takeModerationAction, reverseModerationAction, resolveReports, h]
  · intro auth ha hne
    subst ha
    simp [takeModerationAction, reverseModerationAction, resolveReports, hne]

/-- Concrete instantiation of the amended claim C9: unset adminAuth
throws, and a non-empty adminAuth yields the three requests with the
defaults filled in. -/
theorem c9_admin_wrappers_witness :
    Seed.takeModerationAction none ⟨"a", "s", none, none⟩ = Except.error Seed.noAdminAuthMsg ∧
    Seed.takeModerationAction (some "secret") ⟨"a", "s", none, none⟩
      = Except.ok ⟨"a", "s", "did:example:admin", "X", "secret"⟩ ∧
    Seed.reverseModerationAction (some "secret") ⟨7, none, some "did:example:mod"⟩
      = Except.ok ⟨7, "X", "did:example:mod", "secret"⟩ ∧
    Seed.resolveReports (some "secret") ⟨3, [1, 2], none⟩
      = Except.ok ⟨3, "did:example:admin", [1, 2], "secret"⟩ := by
  refine ⟨((c9_admin_wrappers none ⟨"a", "s", none, none⟩ ⟨7, none, some "did:example:mod"⟩
      ⟨3, [1, 2], none⟩).1 rfl).1, ?_, ?_, ?_⟩
  · exact ((c9_admin_wrappers (some "secret") ⟨"a", "s", none, none⟩
      ⟨7, none, some "did:example:mod"⟩ ⟨3, [1, 2], none⟩).2 "secret" rfl rfl).1
  · exact ((c9_admin_wrappers (some "secret") ⟨"a", "s", none, none⟩
      ⟨7, none, some "did:example:mod"⟩ ⟨3, [1, 2], none⟩).2 "secret" rfl rfl).2.1
  · exact ((c9_admin_wrappers (some "secret") ⟨"a", "s", none, none⟩
      ⟨7, none, some "did:example:mod"⟩ ⟨3, [1, 2], none⟩).2 "secret" rfl rfl).2.2

namespace ModDocs

/-- Character-list search behind JS String.prototype.indexOf: position of
the first occurrence of pat at or after the running index, or minus one
when pat never occurs. -/
def jsIndexOfFrom (pat : List Char) : List Char → Nat → Int
  | [], i => if pat.isPrefixOf [] then (i : Int) else -1
  | c :: tl, i => if pat.isPrefixOf (c :: tl) then (i : Int) else jsIndexOfFrom pat tl (i + 1)

/-- Embeds title.indexOf(lastTitle): index of the first occurrence of
pat in s, or minus one when pat does not occur in s. -/
def jsIndexOf (s pat : String) : Int :=
  jsIndexOfFrom pat.toList s.toList 0

/-- Embeds postTableHead of profile-moderation-behaviors.mjs. -/
def postTableHead : String :=
  "<tr><th>Scenario</th><th>Filter</th><th>Account</th><th>Profile</td><th>Avatar</th></tr>"

/-- Embeds the header-emission state of the profiles() loop: for each
scenario title, a header row is emitted exactly when
title.indexOf(lastTitle) equals minus one, and lastTitle then becomes
title.slice(0, 10) for the next iteration. -/
def profilesRows (lastTitle : String) : List String → List Bool
  | [] => []
  | title :: rest => (jsIndexOf title lastTitle == -1) :: profilesRows (title.take 10) rest

/-- Header-emission flags of the generated scenarios table, starting from
the initial lastTitle value NULL as in profiles(). -/
def headerFlags (titles : List String) : List Bool :=
  profilesRows "NULL" titles

/-- Boolean substring containment, the notion claim C10 speaks of. -/
def containsSubstr (s pat : String) : Bool :=
  decide (pat.toList <:+: s.toList)

/-- The header rule in the words of claim C10: a header precedes the
first scenario unless its title contains NULL, and precedes every later
scenario exactly when its title does not contain the first ten
characters of the previous title as a substring. -/
def headerFlagsClaim : List String → List Bool
  | [] => []
  | t :: ts =>
    (!containsSubstr t "NULL") ::
      List.zipWith (fun prev cur => !containsSubstr cur (prev.take 10)) (t :: ts) ts

theorem jsIndexOfFrom_eq_neg_one_iff (pat : List Char) :
    ∀ (s : List Char) (i : Nat), jsIndexOfFrom pat s i = -1 ↔ ¬ pat <:+: s := by
  intro s
  induction s with
  | nil =>
    intro i
    cases hp : pat.isPrefixOf ([] : List Char) with
    | true =>
      have hnil : pat = [] := List.prefix_nil.mp ( List.isPrefixOf_iff_prefix.mp hp)
      subst hnil
      simp only [jsIndexOfFrom, hp, if_true]
      constructor
      · intro hi
        exact absurd hi (by omega)
      · intro hn
        exact absurd List.nil_infix hn
    | false =>
      simp only [jsIndexOfFrom, hp, Bool.false_eq_true, if_false]
      constructor
      · intro _ hin
        have hnil := List.infix_nil.mp hin
        rw [hnil] at hp
        simp at hp
      · intro _
        trivial
  | cons c tl ih =>
    intro i
    cases hp : pat.isPrefixOf (c :: tl) with
    | true =>
      simp only [jsIndexOfFrom, hp, if_true]
      have hin : pat <:+: c :: tl := ( List.isPrefixOf_iff_prefix.mp hp).isInfix
      constructor
      · intro hi
        exact absurd hi (by omega)
      · intro hn
        exact absurd hin hn
    | false =>
      simp only [jsIndexOfFrom, hp, Bool.false_eq_true, if_false]
      rw [ih (i + 1)]
      have hnp : ¬ pat <+: c :: tl := by
        intro hc
        have hb := List.isPrefixOf_iff_prefix.mpr hc
        rw [hp] at hb
        exact Bool.false_ne_true hb
      constructor
      · intro h1 h2
        rcases List.infix_cons_iff.mp h2 with h3 | h3
        · exact hnp h3
        · exact h1 h3
      · intro h1 h2
        exact h1 (List.infix_cons_iff.mpr (Or.inr h2))

theorem jsIndexOf_eq_neg_one_iff (s pat : String) :
    (jsIndexOf s pat == -1) = !containsSubstr s pat := by
  rw [Bool.eq_iff_iff]
  simp only [beq_iff_eq, Bool.not_eq_true', Bool.not_eq_false, containsSubstr, jsIndexOf,
    jsIndexOfFrom_eq_neg_one_iff pat.toList s.toList 0, decide_eq_true_eq, decide_eq_false_iff_not]

theorem profilesRows_eq_claim : ∀ (titles : List String) (lastTitle : String),
    profilesRows lastTitle titles =
      match titles with
      | [] => []
      | t :: ts =>
        (!containsSubstr t lastTitle) ::
          List.zipWith (fun prev cur => !containsSubstr cur (prev.take 10)) (t :: ts) ts := by
  intro titles
  induction titles with
  | nil =>
    intro lastTitle
    rfl
  | cons t ts ih =>
    intro lastTitle
    simp only [profilesRows]
    rw [jsIndexOf_eq_neg_one_iff, ih (t.take 10)]
    cases ts with
    | nil => rfl
    | cons u us => rfl

end ModDocs

/-- Claim C10: the generated table emits a header row immediately before
a scenario row exactly when the title does not contain the first ten
characters of the previous title as a substring, the first scenario
receiving a header unless its title contains NULL. -/
theorem c10_header_rows (titles : List String) :
    ModDocs.headerFlags titles = ModDocs.headerFlagsClaim titles := by
  rw [ModDocs.headerFlags, ModDocs.profilesRows_eq_claim titles "NULL"]
  cases titles with
  | nil => rfl
  | cons t ts => rfl

namespace Ledger

/-- Modelled from the spec: Subject (section 3), the tagged union a
moderation action or report targets.  The moderation service that owns
it is not among the sampled source files — only its endpoint handler and
seed-client callers are. -/
inductive Subject
  | account (actorId : String)
  | record (collectionUri : String) (contentHash : String)
  | blob (contentHash : String)
deriving DecidableEq

/-- Modelled from the spec: the closed enumeration of action kinds. -/
inductive ActionKind
  | takedown
  | acknowledge
  | flag
  | escalate
  | mute
deriving DecidableEq

/-- Modelled from the spec: a subject is well formed when its identifier
and hashes are non-empty. -/
def Subject.wellFormed : Subject → Bool
  | Subject.account a => !a.isEmpty
  | Subject.record u h => !u.isEmpty && !h.isEmpty
  | Subject.blob h => !h.isEmpty

/-- Modelled from the spec: ModerationAction (section 3), with reversal
fields present only when reversed. -/
structure ModerationAction where
  id : Nat
  kind : ActionKind
  subject : Subject
  reason : String
  createdBy : String
  createdAt : Nat
  reversedBy : Option String
  reversedAt : Option Nat
  reversedReason : Option String
deriving DecidableEq

/-- Modelled from the spec: the two values of the derived status. -/
inductive ActionStatus
  | active
  | reversed
deriving DecidableEq

/-- Modelled from the spec: derived status — Active iff reversedAt is
unset. -/
def ModerationAction.status (a : ModerationAction) : ActionStatus :=
  if a.reversedAt.isSome then ActionStatus.reversed else ActionStatus.active

/-- Modelled from the spec: ModerationReport (section 3), whose
resolvingActionId is set exactly once and never cleared. -/
structure ModerationReport where
  id : Nat
  reasonType : String
  subject : Subject
  reportedBy : String
  reason : String
  createdAt : Nat
  resolvingActionId : Option Nat
deriving DecidableEq

/-- Modelled from the spec: the ledger state — actions, reports, and the
monotonically assigned next identifiers. -/
structure LedgerState where
  actions : List ModerationAction
  reports : List ModerationReport
  nextActionId : Nat
  nextReportId : Nat
deriving DecidableEq

/-- Modelled from the spec: the error taxonomy of section 7 raised by the
ledger operations. -/
inductive ModError
  | invalidSubject
  | notFound
  | alreadyReversed
  | alreadyResolved
deriving DecidableEq

/-- Lookup of the action a given id references. -/
def findAction (st : LedgerState) (id : Nat) : Option ModerationAction :=
  st.actions.find? (fun a => a.id == id)

/-- Lookup of the report a given id references. -/
def findReport (st : LedgerState) (id : Nat) : Option ModerationReport :=
  st.reports.find? (fun r => r.id == id)

/-- Modelled from the spec: getAction (section 4.1), the operation behind
the getModerationAction endpoint handler in the sampled sources.  The
state component is returned unchanged in both outcomes. -/
def getAction (st : LedgerState) (id : Nat) :
    Except ModError ModerationAction × LedgerState :=
  match findAction st id with
  | some a => (Except.ok a, st)
  | none => (Except.error ModError.notFound, st)

/-- Modelled from the spec: takeAction (section 4.1). -/
def takeAction (st : LedgerState) (kind : ActionKind) (subject : Subject)
    (reason createdBy : String) (now : Nat) :
    Except ModError ModerationAction × LedgerState :=
  if !subject.wellFormed then (Except.error ModError.invalidSubject, st)
  else
    let a : ModerationAction :=
      ⟨st.nextActionId, kind, subject, reason, createdBy, now, none, none, none⟩
    (Except.ok a,
      { st with actions := st.actions ++ [a], nextActionId := st.nextActionId + 1 })

/-- The reversal fields set on an action, as one atomic update. -/
def ModerationAction.reverse (a : ModerationAction) (reversedBy reason : String) (now : Nat) :
    ModerationAction :=
  { a with reversedBy := some reversedBy, reversedAt := some now, reversedReason := some reason }

/-- Modelled from the spec: reverseAction (section 4.1) — NotFound on an
unknown id, AlreadyReversed when status is already Reversed, otherwise
the reversal fields are set atomically. -/
def reverseAction (st : LedgerState) (id : Nat) (reversedBy reason : String) (now : Nat) :
    Except ModError ModerationAction × LedgerState :=
  match findAction st id with
  | none => (Except.error ModError.notFound, st)
  | some a =>
    if a.status = ActionStatus.reversed then (Except.error ModError.alreadyReversed, st)
    else
      let rev := a.reverse reversedBy reason now
      (Except.ok rev,
        { st with actions := st.actions.map (fun b => if b.id == id then rev else b) })

/-- Modelled from the spec: createReport (section 4.2). -/
def createReport (st : LedgerState) (reasonType : String) (subject : Subject)
    (reason reportedBy : String) (now : Nat) :
    Except ModError ModerationReport × LedgerState :=
  if !subject.wellFormed then (Except.error ModError.invalidSubject, st)
  else
    let r : ModerationReport :=
      ⟨st.nextReportId, reasonType, subject, reportedBy, reason, now, none⟩
    (Except.ok r,
      { st with reports := st.reports ++ [r], nextReportId := st.nextReportId + 1 })

/-- The resolution link set on a report. -/
def ModerationReport.resolveWith (r : ModerationReport) (actionId : Nat) : ModerationReport :=
  { r with resolvingActionId := some actionId }

/-- Modelled from the spec: resolveReports (section 4.2) — NotFound when
the action id or any report id is unknown, AlreadyResolved when any
listed report already carries a resolvingActionId, otherwise every
listed report is linked to the action in one atomic update. -/
def resolveReports (st : LedgerState) (actionId : Nat) (reportIds : List Nat)
    (createdBy : String) :
    Except ModError (List ModerationReport) × LedgerState :=
  if (findAction st actionId).isNone then (Except.error ModError.notFound, st)
  else if reportIds.any (fun rid => (findReport st rid).isNone) then
    (Except.error ModError.notFound, st)
  else if reportIds.any (fun rid =>
      match findReport st rid with
      | some r => r.resolvingActionId.isSome
      | none => false) then
    (Except.error ModError.alreadyResolved, st)
  else
    let reports := st.reports.map (fun r =>
      if reportIds.contains r.id then r.resolveWith actionId else r)
    (Except.ok (reports.filter (fun r => reportIds.contains r.id)),
      { st with reports := reports })

/-- One ledger mutation, used to state that reversal and resolution are
terminal under every later operation. -/
inductive LedgerOp
  | take (kind : ActionKind) (subject : Subject) (reason createdBy : String) (now : Nat)
  | reverse (id : Nat) (reversedBy reason : String) (now : Nat)
  | resolve (actionId : Nat) (reportIds : List Nat) (createdBy : String)
  | report (reasonType : String) (subject : Subject) (reason reportedBy : String) (now : Nat)

/-- The state after one ledger operation. -/
def applyOp (st : LedgerState) : LedgerOp → LedgerState
  | LedgerOp.take k s r c n => (takeAction st k s r c n).2
  | LedgerOp.reverse i b r n => (reverseAction st i b r n).2
  | LedgerOp.resolve a rs c => (resolveReports st a rs c).2
  | LedgerOp.report rt s r b n => (createReport st rt s r b n).2

/-- The state after a sequence of ledger operations. -/
def applyOps (st : LedgerState) : List LedgerOp → LedgerState
  | [] => st
  | op :: ops => applyOps (applyOp st op) ops

end Ledger

namespace Ledger

theorem find?_append_some {α : Type} {p : α → Bool} {l₁ l₂ : List α} {a : α}
    (h : l₁.find? p = some a) : (l₁ ++ l₂).find? p = some a := by
  rw [List.find?_append, h]
  rfl

theorem find?_map_of_pres {α : Type} {p : α → Bool} {g : α → α}
    (hg : ∀ b, p (g b) = p b) (l : List α) :
    (l.map g).find? p = (l.find? p).map g := by
  rw [List.find?_map]
  have hfun : (p ∘ g) = p := funext hg
  rw [hfun]

theorem find?_eq_some_of_unique {α : Type} {p : α → Bool} {l : List α} {a : α}
    (ha : a ∈ l) (hpa : p a = true) (huniq : ∀ b ∈ l, p b = true → b = a) :
    l.find? p = some a := by
  induction l with
  | nil => cases ha
  | cons x xs ih =>
    cases hx : p x with
    | true =>
      have hxa : x = a := huniq x (List.mem_cons_self x xs) hx
      rw [hxa]
      exact List.find?_cons_of_pos xs hpa
    | false =>
      have hax : a ∈ xs := by
        rcases List.mem_cons.mp ha with h | h
        · rw [← h] at hx
          simp [hpa] at hx
        · exact h
      rw [List.find?_cons_of_neg xs (by simp [hx])]
      exact ih hax (fun b hb hpb => huniq b (List.mem_cons_of_mem x hb) hpb)

end Ledger

open Ledger in
/-- Claim C5: getAction, the operation behind the getModerationAction
endpoint, returns the action a known id references, fails with NotFound
for every id that references no existing action, and leaves the ledger
state unchanged in both cases. -/
theorem c5_get_action_spec (st : LedgerState) (id : Nat) (a : ModerationAction) :
    ((getAction st id).2 = st) ∧
    (a ∈ st.actions → a.id = id → (∀ b ∈ st.actions, b.id = id → b = a) →
      getAction st id = (Except.ok a, st)) ∧
    ((∀ b ∈ st.actions, b.id ≠ id) → getAction st id = (Except.error ModError.notFound, st)) := by
  refine ⟨?_, ?_, ?_⟩
  · unfold getAction
    cases findAction st id <;> rfl
  · intro ha hid huniq
    have hfind : findAction st id = some a := by
      apply find?_eq_some_of_unique ha
      · simp [hid]
      · intro b hb hpb
        exact huniq b hb (by simpa using hpb)
    unfold getAction
    rw [hfind]
  · intro hnone
    have hfind : findAction st id = none := by
      unfold findAction
      rw [List.find?_eq_none]
      intro b hb
      simp only [beq_iff_eq]
      exact hnone b hb
    unfold getAction
    rw [hfind]

namespace Ledger

/-- Concrete subject fixture for the ledger witnesses. -/
def subAlice : Subject := Subject.account "did:example:alice"

/-- Concrete active takedown action with id one. -/
def act0 : ModerationAction :=
  ⟨1, ActionKind.takedown, subAlice, "X", "did:example:admin", 0, none, none, none⟩

/-- Concrete open report with id one. -/
def rep0 : ModerationReport :=
  ⟨1, "com.atproto.moderation.defs#reasonSpam", subAlice, "did:example:bob", "r", 0, none⟩

/-- Concrete ledger holding one active action and one open report. -/
def st0 : LedgerState := ⟨[act0], [rep0], 2, 2⟩

end Ledger

open Ledger in
/-- Concrete instantiation of claim C5: the known id one is returned, the
unknown id two fails with NotFound, the state unchanged in both cases. -/
theorem c5_get_action_spec_witness :
    getAction st0 1 = (Except.ok act0, st0) ∧
    getAction st0 2 = (Except.error ModError.notFound, st0) := by
  constructor
  · exact (c5_get_action_spec st0 1 act0).2.1 (by simp [st0]) rfl
      (by intro b hb _; simpa [st0] using hb)
  · exact (c5_get_action_spec st0 2 act0).2.2
      (by intro b hb; simp [st0] at hb; subst hb; decide)

namespace Ledger

theorem findAction_eq_of_actions_eq {st1 st2 : LedgerState} (h : st2.actions = st1.actions)
    (id : Nat) : findAction st2 id = findAction st1 id := by
  unfold findAction
  rw [h]

theorem createReport_actions (st : LedgerState) (rt : String) (s : Subject) (r b : String)
    (n : Nat) : ((createReport st rt s r b n).2).actions = st.actions := by
  unfold createReport
  split
  · rfl
  · rfl

theorem resolveReports_actions (st : LedgerState) (aId : Nat) (rIds : List Nat) (c : String) :
    ((resolveReports st aId rIds c).2).actions = st.actions := by
  unfold resolveReports
  split
  · rfl
  · split
    · rfl
    · split
      · rfl
      · rfl

theorem findAction_applyOp_of_reversed {st : LedgerState} {id : Nat} {a : ModerationAction}
    (hfind : findAction st id = some a) (hrev : a.status = ActionStatus.reversed)
    (op : LedgerOp) : findAction (applyOp st op) id = some a := by
  cases op with
  | take k s r c n =>
    show findAction (takeAction st k s r c n).2 id = some a
    unfold takeAction
    cases hw : s.wellFormed with
    | false => simpa [hw] using hfind
    | true =>
      simp only [hw, Bool.not_true, Bool.false_eq_true, if_false]
      exact find?_append_some hfind
  | report rt s r b n =>
    show findAction (createReport st rt s r b n).2 id = some a
    rw [findAction_eq_of_actions_eq (createReport_actions st rt s r b n) id]
    exact hfind
  | resolve aId rIds c =>
    show findAction (resolveReports st aId rIds c).2 id = some a
    rw [findAction_eq_of_actions_eq (resolveReports_actions st aId rIds c) id]
    exact hfind
  | reverse i b r n =>
    show findAction (reverseAction st i b r n).2 id = some a
    unfold reverseAction
    cases hfi : findAction st i with
    | none =>
      simp only [hfi]
      exact hfind
    | some a2 =>
      simp only [hfi]
      by_cases hs : a2.status = ActionStatus.reversed
      · rw [if_pos hs]
        exact hfind
      · rw [if_neg hs]
        have haid : a.id = id := by simpa using List.find?_some hfind
        have ha2id : a2.id = i := by simpa using List.find?_some hfi
        by_cases hii : id = i
        · rw [← hii] at hfi
          rw [hfind] at hfi
          injection hfi with hae
          exact absurd (hae ▸ hrev) hs
        · have hane : a.id ≠ i := by
            rw [haid]
            exact hii
          have hpres : ∀ x : ModerationAction,
              ((if x.id == i then a2.reverse b r n else x).id == id) = (x.id == id) := by
            intro x
            by_cases hx : (x.id == i) = true
            · rw [if_pos hx]
              have hxi : x.id = i := by simpa using hx
              show (a2.id == id) = (x.id == id)
              rw [ha2id, hxi]
            · rw [if_neg hx]
          have hfL : st.actions.find? (fun x => x.id == id) = some a := hfind
          show (st.actions.map (fun x => if x.id == i then a2.reverse b r n else x)).find?
              (fun x => x.id == id) = some a
          rw [find?_map_of_pres hpres, hfL]
          simp [hane]

theorem findAction_applyOps_of_reversed {id : Nat} {a : ModerationAction}
    (hrev : a.status = ActionStatus.reversed) :
    ∀ (ops : List LedgerOp) (st : LedgerState), findAction st id = some a →
      findAction (applyOps st ops) id = some a := by
  intro ops
  induction ops with
  | nil =>
    intro st hfind
    exact hfind
  | cons op rest ih =>
    intro st hfind
    exact ih (applyOp st op) (findAction_applyOp_of_reversed hfind hrev op)

end Ledger

open Ledger in
/-- Claim C6: reverseAction fails with NotFound on every unknown id and
with AlreadyReversed on every action already Reversed, leaving the state
unchanged on error; on success the action becomes Reversed, and a
reversed action is immutable under every later ledger operation —
Reversed is terminal, with no re-reversal and no re-activation. -/
theorem c6_reverse_action_spec (st : LedgerState) (id : Nat) (rby rsn : String) (now : Nat) :
    (findAction st id = none →
      reverseAction st id rby rsn now = (Except.error ModError.notFound, st)) ∧
    (∀ a, findAction st id = some a → a.status = ActionStatus.reversed →
      reverseAction st id rby rsn now = (Except.error ModError.alreadyReversed, st)) ∧
    (∀ a, findAction st id = some a → a.status = ActionStatus.active →
      (reverseAction st id rby rsn now).1 = Except.ok (a.reverse rby rsn now) ∧
      findAction (reverseAction st id rby rsn now).2 id = some (a.reverse rby rsn now) ∧
      (a.reverse rby rsn now).status = ActionStatus.reversed) ∧
    (∀ a, findAction st id = some a → a.status = ActionStatus.reversed →
      ∀ ops : List LedgerOp, findAction (applyOps st ops) id = some a) := by
  refine ⟨?_, ?_, ?_, ?_⟩
  · intro h
    unfold reverseAction
    rw [h]
  · intro a hf hs
    unfold reverseAction
    rw [hf]
    simp only [if_pos hs]
  · intro a hf hs
    have hns : ¬ a.status = ActionStatus.reversed := by
      rw [hs]
      intro hc
      cases hc
    have haid : a.id = id := by simpa using List.find?_some hf
    refine ⟨?_, ?_, rfl⟩
    · unfold reverseAction
      rw [hf]
      simp only [if_neg hns]
    · unfold reverseAction
      rw [hf]
      simp only [if_neg hns]
      have hpres : ∀ x : ModerationAction,
          ((if x.id == id then a.reverse rby rsn now else x).id == id) = (x.id == id) := by
        intro x
        by_cases hx : (x.id == id) = true
        · rw [if_pos hx]
          have hxi : x.id = id := by simpa using hx
          show (a.id == id) = (x.id == id)
          rw [haid, hxi]
        · rw [if_neg hx]
      have hfL : st.actions.find? (fun x => x.id == id) = some a := hf
      show (st.actions.map (fun x => if x.id == id then a.reverse rby rsn now else x)).find?
          (fun x => x.id == id) = some (a.reverse rby rsn now)
      rw [find?_map_of_pres hpres, hfL]
      simp [haid]
  · intro a hf hs ops
    exact findAction_applyOps_of_reversed hs ops st hf

namespace Ledger

/-- The concrete ledger after reversing the action of st0. -/
def stRev : LedgerState := (reverseAction st0 1 "did:example:admin" "mistake" 5).2

end Ledger

open Ledger in
/-- Concrete instantiation of claim C6: an unknown id fails with
NotFound, reversing the active action succeeds, re-reversal fails with
AlreadyReversed leaving the state unchanged, and the reversed action
survives a later take and re-reverse attempt untouched. -/
theorem c6_reverse_action_spec_witness :
    reverseAction st0 9 "x" "y" 1 = (Except.error ModError.notFound, st0) ∧
    (reverseAction st0 1 "did:example:admin" "mistake" 5).1
      = Except.ok (act0.reverse "did:example:admin" "mistake" 5) ∧
    reverseAction stRev 1 "z" "w" 6 = (Except.error ModError.alreadyReversed, stRev) ∧
    findAction (applyOps stRev
        [LedgerOp.take ActionKind.flag subAlice "s" "did:example:admin" 7,
         LedgerOp.reverse 1 "z" "w" 8]) 1
      = some (act0.reverse "did:example:admin" "mistake" 5) := by
  refine ⟨(c6_reverse_action_spec st0 9 "x" "y" 1).1 rfl,
    ((c6_reverse_action_spec st0 1 "did:example:admin" "mistake" 5).2.2.1 act0 rfl rfl).1,
    (c6_reverse_action_spec stRev 1 "z" "w" 6).2.1
      (act0.reverse "did:example:admin" "mistake" 5) rfl rfl,
    (c6_reverse_action_spec stRev 1 "z" "w" 6).2.2.2
      (act0.reverse "did:example:admin" "mistake" 5) rfl rfl
      [LedgerOp.take ActionKind.flag subAlice "s" "did:example:admin" 7,
       LedgerOp.reverse 1 "z" "w" 8]⟩

namespace Ledger

theorem findReport_eq_of_reports_eq {st1 st2 : LedgerState} (h : st2.reports = st1.reports)
    (id : Nat) : findReport st2 id = findReport st1 id := by
  unfold findReport
  rw [h]

theorem takeAction_reports (st : LedgerState) (k : ActionKind) (s : Subject) (r c : String)
    (n : Nat) : ((takeAction st k s r c n).2).reports = st.reports := by
  unfold takeAction
  split
  · rfl
  · rfl

theorem reverseAction_reports (st : LedgerState) (i : Nat) (b r : String) (n : Nat) :
    ((reverseAction st i b r n).2).reports = st.reports := by
  unfold reverseAction
  split
  · rfl
  · split
    · rfl
    · rfl

theorem findReport_applyOp_of_resolved {st : LedgerState} {rid : Nat} {r : ModerationReport}
    (hfind : findReport st rid = some r) (hres : r.resolvingActionId.isSome = true)
    (op : LedgerOp) : findReport (applyOp st op) rid = some r := by
  cases op with
  | take k s rr c n =>
    show findReport (takeAction st k s rr c n).2 rid = some r
    rw [findReport_eq_of_reports_eq (takeAction_reports st k s rr c n) rid]
    exact hfind
  | reverse i b rr n =>
    show findReport (reverseAction st i b rr n).2 rid = some r
    rw [findReport_eq_of_reports_eq (reverseAction_reports st i b rr n) rid]
    exact hfind
  | report rt s rr b n =>
    show findReport (createReport st rt s rr b n).2 rid = some r
    unfold createReport
    split
    · exact hfind
    · exact find?_append_some hfind
  | resolve aId rIds c =>
    show findReport (resolveReports st aId rIds c).2 rid = some r
    unfold resolveReports
    split
    · exact hfind
    · split
      · exact hfind
      · split
        · exact hfind
        · next h3 =>
          have hrid : r.id = rid := by simpa using List.find?_some hfind
          have hmemF : rid ∈ rIds → False := by
            intro hm
            apply h3
            rw [List.any_eq_true]
            refine ⟨rid, hm, ?_⟩
            simp only [hfind]
            exact hres
          have hnotin : rIds.contains rid = false := by
            cases hcc : rIds.contains rid with
            | false => rfl
            | true =>
              exfalso
              exact hmemF (List.elem_iff.mp hcc)
          have hpres : ∀ x : ModerationReport,
              ((if rIds.contains x.id then x.resolveWith aId else x).id == rid)
                = (x.id == rid) := by
            intro x
            by_cases hx : rIds.contains x.id = true
            · rw [if_pos hx]
              rfl
            · rw [if_neg hx]
          have hfL : st.reports.find? (fun x => x.id == rid) = some r := hfind
          show (st.reports.map
              (fun x => if rIds.contains x.id then x.resolveWith aId else x)).find?
              (fun x => x.id == rid) = some r
          rw [find?_map_of_pres hpres, hfL]
          show some (if rIds.contains r.id then r.resolveWith aId else r) = some r
          rw [hrid, hnotin]
          simp

theorem findReport_applyOps_of_resolved {rid : Nat} {r : ModerationReport}
    (hres : r.resolvingActionId.isSome = true) :
    ∀ (ops : List LedgerOp) (st : LedgerState), findReport st rid = some r →
      findReport (applyOps st ops) rid = some r := by
  intro ops
  induction ops with
  | nil =>
    intro st hfind
    exact hfind
  | cons op rest ih =>
    intro st hfind
    exact ih (applyOp st op) (findReport_applyOp_of_resolved hfind hres op)

end Ledger

open Ledger in
/-- Claim C7: resolveReports is all-or-nothing — when the action and all
listed reports exist, if any listed report already carries a
resolvingActionId the call fails with AlreadyResolved and the state is
unchanged, so none of the listed reports are resolved; when all listed
reports are open, every listed report is linked to the action in the
resulting state; and a resolved report stays linked to that one action
under every later ledger operation. -/
theorem c7_resolve_reports_spec (st : LedgerState) (actionId : Nat) (reportIds : List Nat)
    (createdBy : String)
    (hact : (findAction st actionId).isSome = true)
    (hex : ∀ rid ∈ reportIds, (findReport st rid).isSome = true) :
    ((∃ rid ∈ reportIds, ∃ r, findReport st rid = some r ∧ r.resolvingActionId.isSome = true) →
      resolveReports st actionId reportIds createdBy
        = (Except.error ModError.alreadyResolved, st)) ∧
    ((∀ rid ∈ reportIds, ∀ r, findReport st rid = some r → r.resolvingActionId = none) →
      ∀ rid ∈ reportIds, ∀ r, findReport st rid = some r →
        findReport (resolveReports st actionId reportIds createdBy).2 rid
          = some (r.resolveWith actionId)) ∧
    (∀ (r : ModerationReport) (rid : Nat), findReport st rid = some r →
      r.resolvingActionId.isSome = true →
      ∀ ops : List LedgerOp, findReport (applyOps st ops) rid = some r) := by
  refine ⟨?_, ?_, ?_⟩
  · rintro ⟨rid, hmem, r, hfr, hres⟩
    unfold resolveReports
    split
    · next h1 =>
      rw [Option.isNone_iff_eq_none] at h1
      rw [h1] at hact
      simp at hact
    · split
      · next h2 =>
        exfalso
        rw [List.any_eq_true] at h2
        obtain ⟨x, hx, hxn⟩ := h2
        have hxs := hex x hx
        rw [Option.isNone_iff_eq_none] at hxn
        rw [hxn] at hxs
        simp at hxs
      · split
        · rfl
        · next h3 =>
          exfalso
          apply h3
          rw [List.any_eq_true]
          refine ⟨rid, hmem, ?_⟩
          simp only [hfr]
          exact hres
  · intro hopen rid hmem r hfr
    unfold resolveReports
    split
    · next h1 =>
      rw [Option.isNone_iff_eq_none] at h1
      rw [h1] at hact
      simp at hact
    · split
      · next h2 =>
        exfalso
        rw [List.any_eq_true] at h2
        obtain ⟨x, hx, hxn⟩ := h2
        have hxs := hex x hx
        rw [Option.isNone_iff_eq_none] at hxn
        rw [hxn] at hxs
        simp at hxs
      · split
        · next h3 =>
          exfalso
          rw [List.any_eq_true] at h3
          obtain ⟨x, hx, hxr⟩ := h3
          cases hfx : findReport st x with
          | none =>
            rw [hfx] at hxr
            simp at hxr
          | some rx =>
            rw [hfx] at hxr
            simp only at hxr
            have := hopen x hx rx hfx
            rw [this] at hxr
            simp at hxr
        · have hrid : r.id = rid := by simpa using List.find?_some hfr
          have hcont : reportIds.contains r.id = true := by
            rw [hrid]
            exact List.elem_eq_true_of_mem hmem
          have hpres : ∀ x : ModerationReport,
              ((if reportIds.contains x.id then x.resolveWith actionId else x).id == rid)
                = (x.id == rid) := by
            intro x
            by_cases hx : reportIds.contains x.id = true
            · rw [if_pos hx]
              rfl
            · rw [if_neg hx]
          have hfL : st.reports.find? (fun x => x.id == rid) = some r := hfr
          show (st.reports.map
              (fun x => if reportIds.contains x.id then x.resolveWith actionId else x)).find?
              (fun x => x.id == rid) = some (r.resolveWith actionId)
          rw [find?_map_of_pres hpres, hfL]
          show some (if reportIds.contains r.id then r.resolveWith actionId else r)
            = some (r.resolveWith actionId)
          rw [hcont]
          simp
  · intro r rid hfr hres ops
    exact findReport_applyOps_of_resolved hres ops st hfr

namespace Ledger

/-- The concrete ledger after resolving the report of st0 by action one. -/
def stRes : LedgerState := (resolveReports st0 1 [1] "did:example:admin").2

end Ledger

open Ledger in
/-- Concrete instantiation of claim C7: resolving the open report links
it to action one; attempting to resolve it again fails with
AlreadyResolved leaving the state unchanged; and the link survives a
later resolution attempt. -/
theorem c7_resolve_reports_spec_witness :
    findReport (resolveReports st0 1 [1] "did:example:admin").2 1 = some (rep0.resolveWith 1) ∧
    resolveReports stRes 1 [1] "did:example:admin"
      = (Except.error ModError.alreadyResolved, stRes) ∧
    findReport (applyOps stRes [LedgerOp.resolve 1 [1] "did:example:admin"]) 1
      = some (rep0.resolveWith 1) := by
  have hex0 : ∀ rid ∈ ([1] : List Nat), (findReport st0 rid).isSome = true := by
    intro rid h
    simp at h
    subst h
    rfl
  have hexR : ∀ rid ∈ ([1] : List Nat), (findReport stRes rid).isSome = true := by
    intro rid h
    simp at h
    subst h
    rfl
  have hopen0 : ∀ rid ∈ ([1] : List Nat), ∀ r, findReport st0 rid = some r →
      r.resolvingActionId = none := by
    intro rid h r hr
    simp at h
    subst h
    have h2 : (some rep0 : Option ModerationReport) = some r := hr
    injection h2 with he
    rw [← he]
    rfl
  refine ⟨(c7_resolve_reports_spec st0 1 [1] "did:example:admin" rfl hex0).2.1 hopen0
      1 (by simp) rep0 rfl,
    (c7_resolve_reports_spec stRes 1 [1] "did:example:admin" rfl hexR).1
      ⟨1, by simp, rep0.resolveWith 1, rfl, rfl⟩,
    (c7_resolve_reports_spec stRes 1 [1] "did:example:admin" rfl hexR).2.2
      (rep0.resolveWith 1) 1 rfl rfl [LedgerOp.resolve 1 [1] "did:example:admin"]⟩

namespace Directives

/-- Modelled from the spec: DirectiveSet (section 3) — per entity kind
the four booleans filter, blur, noOverride, alert.  The directive
resolution engine owning it is not among the sampled source files. -/
structure DirectiveSet where
  filter : Bool
  blur : Bool
  noOverride : Bool
  alert : Bool
deriving DecidableEq

/-- Modelled from the spec: the identity contribution — all false. -/
def DirectiveSet.empty : DirectiveSet := ⟨false, false, false, false⟩

/-- Modelled from the spec: the most-restrictive-wins merge of section
4.4 step 4 — filter, blur and alert are OR-ed, and noOverride is true
when any contributing active action set it. -/
def DirectiveSet.merge (x y : DirectiveSet) : DirectiveSet :=
  ⟨x.filter || y.filter, x.blur || y.blur, x.noOverride || y.noOverride, x.alert || y.alert⟩

/-- Folding the merge over the contributions of the active actions
landing on one entity kind, starting from the identity. -/
def mergeAll (l : List DirectiveSet) : DirectiveSet :=
  l.foldl DirectiveSet.merge DirectiveSet.empty

theorem merge_comm (x y : DirectiveSet) : x.merge y = y.merge x := by
  cases x
  cases y
  simp [DirectiveSet.merge, Bool.or_comm]

theorem merge_assoc (x y z : DirectiveSet) : (x.merge y).merge z = x.merge (y.merge z) := by
  cases x
  cases y
  cases z
  simp [DirectiveSet.merge, Bool.or_assoc]

theorem foldl_merge_perm {l₁ l₂ : List DirectiveSet} (h : l₁.Perm l₂) :
    ∀ init : DirectiveSet,
      l₁.foldl DirectiveSet.merge init = l₂.foldl DirectiveSet.merge init := by
  induction h with
  | nil =>
    intro init
    rfl
  | cons x h ih =>
    intro init
    simp only [List.foldl_cons]
    exact ih (init.merge x)
  | swap x y l =>
    intro init
    simp only [List.foldl_cons]
    have hsw : (init.merge y).merge x = (init.merge x).merge y := by
      rw [merge_assoc, merge_assoc, merge_comm y x]
    rw [hsw]
  | trans h1 h2 ih1 ih2 =>
    intro init
    rw [ih1 init, ih2 init]

end Directives

open Directives in
/-- Claim C1: the directive merge of section 4.4 step 4 is a monoid over
DirectiveSet — commutative, associative, with the all-false set as
identity — and folding it over any permutation of the same contributions
yields the same DirectiveSet. -/
theorem c1_directive_merge_monoid :
    (∀ x y : DirectiveSet, x.merge y = y.merge x) ∧
    (∀ x y z : DirectiveSet, (x.merge y).merge z = x.merge (y.merge z)) ∧
    (∀ x : DirectiveSet, DirectiveSet.empty.merge x = x ∧ x.merge DirectiveSet.empty = x) ∧
    (∀ l₁ l₂ : List DirectiveSet, l₁.Perm l₂ → mergeAll l₁ = mergeAll l₂) := by
  refine ⟨merge_comm, merge_assoc, ?_, ?_⟩
  · intro x
    cases x
    constructor
    · simp [DirectiveSet.merge, DirectiveSet.empty]
    · simp [DirectiveSet.merge, DirectiveSet.empty]
  · intro l₁ l₂ h
    exact foldl_merge_perm h DirectiveSet.empty

/-- Concrete instantiation of claim C1: swapping the order of a takedown
style contribution and a blur-lock contribution yields the same merged
DirectiveSet. -/
theorem c1_directive_merge_monoid_witness :
    Directives.mergeAll [⟨true, false, false, true⟩, ⟨false, true, true, false⟩]
      = Directives.mergeAll [⟨false, true, true, false⟩, ⟨true, false, false, true⟩] := by
  exact c1_directive_merge_monoid.2.2.2
    [⟨true, false, false, true⟩, ⟨false, true, true, false⟩]
    [⟨false, true, true, false⟩, ⟨true, false, false, true⟩]
    (List.Perm.swap (⟨false, true, true, false⟩ : Directives.DirectiveSet)
      ⟨true, false, false, true⟩ [])
